import Mathlib

/-!
Shallow embedding of the food-menu CRUD service (FastAPI + SQLAlchemy).

The embedding follows the source files:
  * `app/models.py`      — the two tables.  Column nullability is modelled
    exactly: `Item.rating` and `Item.is_active` are nullable (SQLAlchemy
    columns default to `nullable=True`), so they are `Option`-typed here,
    while `name`, `price` and `category_id` are `NOT NULL`.
  * `app/schemas.py`     — the pydantic request validators.  Python floats
    are modelled as exact rationals; `round(v, 2)` becomes `roundTo2`.
    Update payloads distinguish an absent field from a field explicitly
    set to `null`, exactly as pydantic's `model_dump(exclude_unset=True)`
    does, hence the `Option (Option _)` typing of patch fields.
  * `app/routers/categories.py` and `app/routers/items.py` — the handlers.
    Python truthiness tests (`if category_update.name:`,
    `if item_update.category_id:`) are modelled by `truthyStrField` /
    `truthyNatField`.  A flush that violates a `NOT NULL` constraint
    (possible when a patch explicitly nulls a non-nullable column) raises
    in the source and commits nothing; it is modelled by the
    `integrityError` outcome with the store unchanged.
    SQLAlchemy emits an `UPDATE` (and hence fires `onupdate` for
    `updated_at`) only when some column actually changed value; the commit
    helpers replicate that.

A database table is modelled as a Lean list in insertion order; primary
keys are drawn from a counter, as the `IDENTITY` columns do.
-/

namespace FoodMenu

/-- `models.py` `Category`: `id` (PK), `name` (NOT NULL, unique),
`description` (nullable). -/
structure Category where
  id : Nat
  name : String
  description : Option String
deriving Repr, DecidableEq

/-- `models.py` `Item`.  `category_id`, `name`, `price` are `NOT NULL`;
`rating`, `is_active`, `description` and the timestamps are nullable
columns (here the timestamps are always populated by their defaults, so
they are plain `Nat`s). -/
structure Item where
  id : Nat
  category_id : Nat
  name : String
  description : Option String
  price : Rat
  rating : Option Rat
  is_active : Option Bool
  created_at : Nat
  updated_at : Nat
deriving Repr, DecidableEq

/-- The two tables plus the identity counters. -/
structure Store where
  categories : List Category
  items : List Item
  nextCategoryId : Nat
  nextItemId : Nat
deriving Repr, DecidableEq

def initStore : Store := ⟨[], [], 1, 1⟩

/-- Error taxonomy of the routers: 404, 400 duplicate-name,
400 has-dependents, 404 category-not-found, and the unhandled
`IntegrityError` raised when a flush violates a `NOT NULL` constraint. -/
inductive ApiError where
  | notFound
  | duplicateName (name : String)
  | hasDependents (count : Nat)
  | categoryNotFound (id : Nat)
  | integrityError
deriving Repr, DecidableEq

/-! ### Request payloads (`schemas.py`) -/

/-- `CategoryCreate`: `name` required, `description` optional. -/
structure CategoryCreate where
  name : String
  description : Option String
deriving Repr, DecidableEq

/-- `CategoryUpdate`: every field optional.  The outer `Option` is
"was the field present in the request" (pydantic `exclude_unset`), the
inner one is the supplied value, which may itself be `null`. -/
structure CategoryUpdate where
  name : Option (Option String)
  description : Option (Option String)
deriving Repr, DecidableEq

/-- `ItemCreate`.  After pydantic parsing, an omitted `rating` is `0.0`
and an omitted `is_active` is `true`; `rating` may be explicitly `null`
(`Optional[float]`) while `is_active` may not (`bool`). -/
structure ItemCreate where
  category_id : Nat
  name : String
  description : Option String
  price : Rat
  rating : Option Rat
  is_active : Bool
deriving Repr, DecidableEq

/-- `ItemUpdate`: all fields optional, absent distinguished from `null`. -/
structure ItemUpdate where
  category_id : Option (Option Nat)
  name : Option (Option String)
  description : Option (Option String)
  price : Option (Option Rat)
  rating : Option (Option Rat)
  is_active : Option (Option Bool)
deriving Repr, DecidableEq

def emptyItemUpdate : ItemUpdate := ⟨none, none, none, none, none, none⟩

def emptyCategoryUpdate : CategoryUpdate := ⟨none, none⟩

/-! ### Validators (`schemas.py`) -/

/-- Python's `round(100 * v) / 100` on exact rationals.  Only the fixed
points of the rounding matter to the validator, and those do not depend
on mid-point tie-breaking, so Mathlib's `round` stands in for Python's
banker rounding. -/
def roundTo2 (v : Rat) : Rat := ((round (100 * v) : Int) : Rat) / 100

/-- `ItemBase.validate_price` combined with `Field(..., gt=0)`:
the price must be positive and must survive rounding to 2 decimals. -/
def validPriceField (v : Rat) : Bool := decide (0 < v) && (roundTo2 v == v)

def validOptStrLen (maxLen : Nat) : Option String → Bool
  | none => true
  | some s => s.length ≤ maxLen

/-- `CategoryCreate` field constraints: name length in [3, 80],
description length ≤ 400. -/
def validCategoryCreate (p : CategoryCreate) : Bool :=
  3 ≤ p.name.length && p.name.length ≤ 80 && validOptStrLen 400 p.description

/-- `CategoryUpdate` field constraints; the length bounds only apply to a
field that is present with a non-null value. -/
def validCategoryUpdate (p : CategoryUpdate) : Bool :=
  (match p.name with
   | some (some n) => 3 ≤ n.length && n.length ≤ 80
   | _ => true) &&
  (match p.description with
   | some (some d) => d.length ≤ 400
   | _ => true)

/-- `ItemCreate` constraints: name in [1, 100], description ≤ 500,
price positive with ≤ 2 decimals, rating in [0, 5] when non-null,
`category_id` positive. -/
def validItemCreate (p : ItemCreate) : Bool :=
  1 ≤ p.name.length && p.name.length ≤ 100 &&
  validOptStrLen 500 p.description &&
  validPriceField p.price &&
  (match p.rating with
   | none => true
   | some r => decide (0 ≤ r) && decide (r ≤ 5)) &&
  decide (0 < p.category_id)

/-- `ItemUpdate` constraints.  `ItemUpdate` subclasses `BaseModel`, not
`ItemBase`, so the 2-decimal `validate_price` check is NOT applied: a
present price only has to satisfy `gt=0`. -/
def validItemUpdate (p : ItemUpdate) : Bool :=
  (match p.category_id with
   | some (some c) => decide (0 < c)
   | _ => true) &&
  (match p.name with
   | some (some n) => 1 ≤ n.length && n.length ≤ 100
   | _ => true) &&
  (match p.description with
   | some (some d) => d.length ≤ 500
   | _ => true) &&
  (match p.price with
   | some (some v) => decide (0 < v)
   | _ => true) &&
  (match p.rating with
   | some (some r) => decide (0 ≤ r) && decide (r ≤ 5)
   | _ => true)

/-! ### Python truthiness of patch fields -/

/-- `if category_update.name:` — truthy only for a present, non-null,
non-empty string; returns that string. -/
def truthyStrField : Option (Option String) → Option String
  | some (some n) => if n = "" then none else some n
  | _ => none

/-- `if item_update.category_id:` — truthy only for a present, non-null,
non-zero integer; returns it. -/
def truthyNatField : Option (Option Nat) → Option Nat
  | some (some c) => if c = 0 then none else some c
  | _ => none

/-! ### Query helpers (`db.query(...).filter(id == ...).first()`) -/

def findCategory (st : Store) (cid : Nat) : Option Category :=
  st.categories.find? (fun c => c.id == cid)

def findItem (st : Store) (iid : Nat) : Option Item :=
  st.items.find? (fun i => i.id == iid)

/-! ### Category endpoints (`app/routers/categories.py`) -/

/-- `create_category`: reject a duplicate name, otherwise insert with a
fresh id. -/
def create_category (st : Store) (p : CategoryCreate) :
    Except ApiError (Store × Category) :=
  match st.categories.find? (fun c => c.name == p.name) with
  | some _ => .error (.duplicateName p.name)
  | none =>
      let c : Category := ⟨st.nextCategoryId, p.name, p.description⟩
      .ok ({ st with
              categories := st.categories ++ [c],
              nextCategoryId := st.nextCategoryId + 1 }, c)

/-- `list_categories`: `offset(skip).limit(limit)` over the table in
insertion order. -/
def list_categories (st : Store) (skip limit : Nat) : List Category :=
  (st.categories.drop skip).take limit

/-- The `setattr` loop of `update_category` followed by the flush.
Explicitly nulling `name` violates its `NOT NULL` constraint, so the
flush raises and nothing is committed (`none`). -/
def applyCategoryPatch (c : Category) (p : CategoryUpdate) : Option Category :=
  match p.name with
  | some none => none
  | _ => some { c with
      name := match p.name with
        | some (some n) => n
        | _ => c.name,
      description := match p.description with
        | some d => d
        | none => c.description }

def commitCategoryUpdate (st : Store) (cid : Nat) (c : Category)
    (p : CategoryUpdate) : Except ApiError (Store × Category) :=
  match applyCategoryPatch c p with
  | none => .error .integrityError
  | some c' =>
      .ok ({ st with
              categories := st.categories.map
                (fun x => if x.id == cid then c' else x) }, c')

/-- `update_category`: 404 when absent; when the new name is truthy,
reject it if a *different* category already holds it; then apply the
present fields. -/
def update_category (st : Store) (cid : Nat) (p : CategoryUpdate) :
    Except ApiError (Store × Category) :=
  match findCategory st cid with
  | none => .error .notFound
  | some c =>
      match truthyStrField p.name with
      | some n =>
          match st.categories.find? (fun x => x.name == n && x.id != cid) with
          | some _ => .error (.duplicateName n)
          | none => commitCategoryUpdate st cid c p
      | none => commitCategoryUpdate st cid c p

/-- `delete_category`: 404 when absent; 400 carrying
`len(db_category.items)` when the category still owns items; otherwise
`db.delete` — the ORM relationship cascades to the (necessarily empty)
set of owned items. -/
def delete_category (st : Store) (cid : Nat) : Except ApiError Store :=
  match findCategory st cid with
  | none => .error .notFound
  | some _ =>
      let deps := st.items.filter (fun i => i.category_id == cid)
      if deps.isEmpty then
        .ok { st with
               categories := st.categories.filter (fun c => !(c.id == cid)),
               items := st.items.filter (fun i => !(i.category_id == cid)) }
      else
        .error (.hasDependents deps.length)

/-! ### Item endpoints (`app/routers/items.py`) -/

/-- `create_item`: 404 when the category id does not exist; otherwise
insert with fresh id and both timestamps set to now. -/
def create_item (st : Store) (p : ItemCreate) (now : Nat) :
    Except ApiError (Store × Item) :=
  match findCategory st p.category_id with
  | none => .error (.categoryNotFound p.category_id)
  | some _ =>
      let it : Item :=
        ⟨st.nextItemId, p.category_id, p.name, p.description, p.price,
          p.rating, some p.is_active, now, now⟩
      .ok ({ st with
              items := st.items ++ [it],
              nextItemId := st.nextItemId + 1 }, it)

/-- The optional query filters of `list_items`. -/
structure ItemFilters where
  category_id : Option Nat
  is_active : Option Bool
  min_price : Option Rat
  max_price : Option Rat
  min_rating : Option Rat
deriving Repr, DecidableEq

def noFilters : ItemFilters := ⟨none, none, none, none, none⟩

/-- One item against the conjunction of the supplied filters.  SQL
comparisons against a stored `NULL` are unknown, hence falsy: a `NULL`
`is_active` matches no `is_active` filter and a `NULL` rating fails any
`min_rating` filter. -/
def matchesFilters (f : ItemFilters) (i : Item) : Bool :=
  (match f.category_id with
   | none => true
   | some c => i.category_id == c) &&
  (match f.is_active with
   | none => true
   | some b => i.is_active == some b) &&
  (match f.min_price with
   | none => true
   | some v => decide (v ≤ i.price)) &&
  (match f.max_price with
   | none => true
   | some v => decide (i.price ≤ v)) &&
  (match f.min_rating with
   | none => true
   | some v =>
      match i.rating with
      | none => false
      | some r => decide (v ≤ r))

/-- `list_items`: the conjunctive filters, then
`offset(skip).limit(limit)`. -/
def list_items (st : Store) (skip limit : Nat) (f : ItemFilters) :
    List Item :=
  ((st.items.filter (matchesFilters f)).drop skip).take limit

/-- The `setattr` loop of `update_item` followed by the flush.
`category_id`, `name` and `price` are `NOT NULL`, so explicitly nulling
any of them makes the flush raise (`none`); `description`, `rating` and
`is_active` are nullable and may be cleared. -/
def applyItemPatch (it : Item) (p : ItemUpdate) : Option Item :=
  if p.category_id = some none ∨ p.name = some none ∨ p.price = some none then
    none
  else
    some { it with
      category_id := match p.category_id with
        | some (some c) => c
        | _ => it.category_id,
      name := match p.name with
        | some (some n) => n
        | _ => it.name,
      description := match p.description with
        | some d => d
        | none => it.description,
      price := match p.price with
        | some (some v) => v
        | _ => it.price,
      rating := match p.rating with
        | some r => r
        | none => it.rating,
      is_active := match p.is_active with
        | some b => b
        | none => it.is_active }

/-- Commit of an item update.  SQLAlchemy only emits an `UPDATE` (and so
only fires the `updated_at` `onupdate` default) when some column has a
net change. -/
def commitItemUpdate (st : Store) (iid : Nat) (it : Item) (p : ItemUpdate)
    (now : Nat) : Except ApiError (Store × Item) :=
  match applyItemPatch it p with
  | none => .error .integrityError
  | some it1 =>
      let it2 := if it1 = it then it else { it1 with updated_at := now }
      .ok ({ st with
              items := st.items.map
                (fun x => if x.id == iid then it2 else x) }, it2)

/-- `update_item`: 404 when the item is absent; when the patch's
`category_id` is truthy, 404 when that category does not exist; then
apply the present fields. -/
def update_item (st : Store) (iid : Nat) (p : ItemUpdate) (now : Nat) :
    Except ApiError (Store × Item) :=
  match findItem st iid with
  | none => .error .notFound
  | some it =>
      match truthyNatField p.category_id with
      | some c =>
          match findCategory st c with
          | none => .error (.categoryNotFound c)
          | some _ => commitItemUpdate st iid it p now
      | none => commitItemUpdate st iid it p now

/-- `delete_item`: 404 when absent, otherwise remove the row. -/
def delete_item (st : Store) (iid : Nat) : Except ApiError Store :=
  match findItem st iid with
  | none => .error .notFound
  | some _ =>
      .ok { st with items := st.items.filter (fun i => !(i.id == iid)) }

/-- Python's `not` on a nullable boolean column: `not None` is `True`. -/
def pyNot : Option Bool → Bool
  | some b => !b
  | none => true

/-- `toggle_item_active`: 404 when absent; otherwise
`is_active = not is_active` — always a net change, so `updated_at` is
always refreshed. -/
def toggle_item_active (st : Store) (iid : Nat) (now : Nat) :
    Except ApiError (Store × Item) :=
  match findItem st iid with
  | none => .error .notFound
  | some it =>
      let it2 : Item :=
        { it with is_active := some (pyNot it.is_active), updated_at := now }
      .ok ({ st with
              items := st.items.map
                (fun x => if x.id == iid then it2 else x) }, it2)

/-! ### The request surface and reachable states -/

/-- One mutating request at the public interface. -/
inductive Request where
  | createCategory (p : CategoryCreate)
  | updateCategory (cid : Nat) (p : CategoryUpdate)
  | deleteCategory (cid : Nat)
  | createItem (p : ItemCreate)
  | updateItem (iid : Nat) (p : ItemUpdate)
  | deleteItem (iid : Nat)
  | toggleItemActive (iid : Nat)
deriving Repr, DecidableEq

/-- The request validator runs strictly before any store operation: only
payloads it accepts ever reach the handlers. -/
def validRequest : Request → Bool
  | .createCategory p => validCategoryCreate p
  | .updateCategory _ p => validCategoryUpdate p
  | .deleteCategory _ => true
  | .createItem p => validItemCreate p
  | .updateItem _ p => validItemUpdate p
  | .deleteItem _ => true
  | .toggleItemActive _ => true

/-- The store after a request: the new store on success, the old store on
any failure (the failed transaction is rolled back / never flushed). -/
def stepStore (st : Store) (r : Request) (now : Nat) : Store :=
  match r with
  | .createCategory p =>
      match create_category st p with
      | .ok (s, _) => s
      | .error _ => st
  | .updateCategory cid p =>
      match update_category st cid p with
      | .ok (s, _) => s
      | .error _ => st
  | .deleteCategory cid =>
      match delete_category st cid with
      | .ok s => s
      | .error _ => st
  | .createItem p =>
      match create_item st p now with
      | .ok (s, _) => s
      | .error _ => st
  | .updateItem iid p =>
      match update_item st iid p now with
      | .ok (s, _) => s
      | .error _ => st
  | .deleteItem iid =>
      match delete_item st iid with
      | .ok s => s
      | .error _ => st
  | .toggleItemActive iid =>
      match toggle_item_active st iid now with
      | .ok (s, _) => s
      | .error _ => st

/-- States reachable from the empty store through validated requests. -/
inductive Reachable : Store → Prop where
  | init : Reachable initStore
  | step {st : Store} {r : Request} {now : Nat} :
      Reachable st → validRequest r = true → Reachable (stepStore st r now)

/-- Relation holding between a category row and every later row: ids
strictly increase (creation order) and names differ. -/
def catR (a b : Category) : Prop := a.id < b.id ∧ a.name ≠ b.name

/-- Invariant of the category table: rows are in strictly increasing id
order with pairwise distinct names, ids stay below the identity counter,
and every stored name passed the length-3 validator. -/
def StoreInv (st : Store) : Prop :=
  st.categories.Pairwise catR ∧
  (∀ c ∈ st.categories, c.id < st.nextCategoryId) ∧
  (∀ c ∈ st.categories, 3 ≤ c.name.length)

/-! ### A concrete request trace used by the example theorems -/

def reqDrinks : Request := .createCategory ⟨"Drinks", none⟩

def reqFood : Request := .createCategory ⟨"Food", some "Snacks"⟩

/-- `1.50`, the price of the example item. -/
def colaPrice : Rat := (3 : Rat) / 2

/-- `12.999`: positive but with three decimal places. -/
def badPrice : Rat := (12999 : Rat) / 1000

def reqCola : Request := .createItem ⟨1, "Cola", none, colaPrice, some 0, true⟩

/-- An update payload carrying only `price = 12.999`. -/
def badPricePatch : ItemUpdate := ⟨none, none, none, some (some badPrice), none, none⟩

/-- An update payload carrying only an explicit `is_active = null`. -/
def nullActivePatch : ItemUpdate := ⟨none, none, none, none, none, some none⟩

def exSt1 : Store := stepStore initStore reqDrinks 0

def exSt2 : Store := stepStore exSt1 reqFood 0

def exSt3 : Store := stepStore exSt2 reqCola 1

def exStBad : Store := stepStore exSt3 (.updateItem 1 badPricePatch) 2

def exStNull : Store := stepStore exSt3 (.updateItem 1 nullActivePatch) 2

/-- The example item as stored in `exSt3`. -/
def exCola : Item := ⟨1, 1, "Cola", none, colaPrice, some 0, some true, 1, 1⟩

/-- The example item after the explicit `is_active = null` update. -/
def exColaNull : Item := ⟨1, 1, "Cola", none, colaPrice, some 0, none, 1, 2⟩

/-! ### Inversion lemmas: the shape of each successful operation -/

lemma create_category_ok {st : Store} {p : CategoryCreate} {s : Store}
    {c : Category} (h : create_category st p = .ok (s, c)) :
    st.categories.find? (fun c0 => c0.name == p.name) = none ∧
    c = ⟨st.nextCategoryId, p.name, p.description⟩ ∧
    s = { st with categories := st.categories ++ [c],
                  nextCategoryId := st.nextCategoryId + 1 } := by
  unfold create_category at h
  cases hfind : st.categories.find? (fun c0 => c0.name == p.name) with
  | some _ => simp [hfind] at h
  | none =>
    simp only [hfind, Except.ok.injEq, Prod.mk.injEq] at h
    obtain ⟨hs, hc⟩ := h
    subst hc
    exact ⟨rfl, rfl, hs.symm⟩

lemma update_category_ok {st : Store} {cid : Nat} {p : CategoryUpdate}
    {s : Store} {c' : Category}
    (h : update_category st cid p = .ok (s, c')) :
    ∃ c, findCategory st cid = some c ∧
      applyCategoryPatch c p = some c' ∧
      s = { st with categories :=
        st.categories.map (fun x => if x.id == cid then c' else x) } ∧
      ∀ n, truthyStrField p.name = some n →
        st.categories.find? (fun x => x.name == n && x.id != cid) = none := by
  unfold update_category at h
  cases hfind : findCategory st cid with
  | none => simp [hfind] at h
  | some c =>
    simp only [hfind] at h
    refine ⟨c, rfl, ?_⟩
    cases htruthy : truthyStrField p.name with
    | none =>
      simp only [htruthy] at h
      unfold commitCategoryUpdate at h
      cases happly : applyCategoryPatch c p with
      | none => simp [happly] at h
      | some c1 =>
        simp only [happly, Except.ok.injEq, Prod.mk.injEq] at h
        obtain ⟨hs, hc⟩ := h
        subst hc
        exact ⟨rfl, hs.symm, fun n hn => absurd hn (by simp)⟩
    | some n =>
      simp only [htruthy] at h
      cases hdup : st.categories.find? (fun x => x.name == n && x.id != cid) with
      | some _ => simp [hdup] at h
      | none =>
        simp only [hdup] at h
        unfold commitCategoryUpdate at h
        cases happly : applyCategoryPatch c p with
        | none => simp [happly] at h
        | some c1 =>
          simp only [happly, Except.ok.injEq, Prod.mk.injEq] at h
          obtain ⟨hs, hc⟩ := h
          subst hc
          refine ⟨rfl, hs.symm, ?_⟩
          intro m hm
          have hnm : n = m := by simpa using hm
          exact hnm ▸ hdup

lemma delete_category_ok {st : Store} {cid : Nat} {s : Store}
    (h : delete_category st cid = .ok s) :
    (∃ c, findCategory st cid = some c) ∧
    (st.items.filter (fun i => i.category_id == cid)).isEmpty = true ∧
    s = { st with
            categories := st.categories.filter (fun c => !(c.id == cid)),
            items := st.items.filter (fun i => !(i.category_id == cid)) } := by
  unfold delete_category at h
  cases hfind : findCategory st cid with
  | none => simp [hfind] at h
  | some c =>
    simp only [hfind] at h
    cases hdeps : (st.items.filter (fun i => i.category_id == cid)).isEmpty with
    | false => simp [hdeps] at h
    | true =>
      simp only [hdeps, if_pos, Except.ok.injEq] at h
      exact ⟨⟨c, rfl⟩, rfl, h.symm⟩

lemma create_item_ok {st : Store} {p : ItemCreate} {now : Nat} {s : Store}
    {it : Item} (h : create_item st p now = .ok (s, it)) :
    (∃ c, findCategory st p.category_id = some c) ∧
    it = ⟨st.nextItemId, p.category_id, p.name, p.description, p.price,
          p.rating, some p.is_active, now, now⟩ ∧
    s = { st with items := st.items ++ [it],
                  nextItemId := st.nextItemId + 1 } := by
  unfold create_item at h
  cases hfind : findCategory st p.category_id with
  | none => simp [hfind] at h
  | some c =>
    simp only [hfind, Except.ok.injEq, Prod.mk.injEq] at h
    obtain ⟨hs, hit⟩ := h
    subst hit
    exact ⟨⟨c, rfl⟩, rfl, hs.symm⟩

lemma update_item_ok {st : Store} {iid : Nat} {p : ItemUpdate} {now : Nat}
    {s : Store} {it' : Item}
    (h : update_item st iid p now = .ok (s, it')) :
    ∃ it it1, findItem st iid = some it ∧ applyItemPatch it p = some it1 ∧
      it' = (if it1 = it then it else { it1 with updated_at := now }) ∧
      s = { st with items :=
        st.items.map (fun x => if x.id == iid then it' else x) } ∧
      ∀ c, truthyNatField p.category_id = some c →
        ∃ cat, findCategory st c = some cat := by
  unfold update_item at h
  cases hfind : findItem st iid with
  | none => simp [hfind] at h
  | some it =>
    simp only [hfind] at h
    refine ⟨it, ?_⟩
    cases htruthy : truthyNatField p.category_id with
    | none =>
      simp only [htruthy] at h
      unfold commitItemUpdate at h
      cases happly : applyItemPatch it p with
      | none => simp [happly] at h
      | some it1 =>
        simp only [happly, Except.ok.injEq, Prod.mk.injEq] at h
        obtain ⟨hs, hit⟩ := h
        exact ⟨it1, rfl, rfl, hit.symm, by rw [← hit]; exact hs.symm,
          fun c hc => absurd hc (by simp)⟩
    | some c =>
      cases hcat : findCategory st c with
      | none => simp [htruthy, hcat] at h
      | some cat =>
        simp only [htruthy, hcat] at h
        unfold commitItemUpdate at h
        cases happly : applyItemPatch it p with
        | none => simp [happly] at h
        | some it1 =>
          simp only [happly, Except.ok.injEq, Prod.mk.injEq] at h
          obtain ⟨hs, hit⟩ := h
          refine ⟨it1, rfl, rfl, hit.symm, by rw [← hit]; exact hs.symm, ?_⟩
          intro c0 hc0
          have hcc0 : c = c0 := by simpa using hc0
          exact ⟨cat, hcc0 ▸ hcat⟩

lemma delete_item_ok {st : Store} {iid : Nat} {s : Store}
    (h : delete_item st iid = .ok s) :
    (∃ it, findItem st iid = some it) ∧
    s = { st with items := st.items.filter (fun i => !(i.id == iid)) } := by
  unfold delete_item at h
  cases hfind : findItem st iid with
  | none => simp [hfind] at h
  | some it =>
    simp only [hfind, Except.ok.injEq] at h
    exact ⟨⟨it, rfl⟩, h.symm⟩

lemma toggle_item_active_ok {st : Store} {iid : Nat} {now : Nat} {s : Store}
    {it' : Item} (h : toggle_item_active st iid now = .ok (s, it')) :
    ∃ it, findItem st iid = some it ∧
      it' = { it with is_active := some (pyNot it.is_active),
                      updated_at := now } ∧
      s = { st with items :=
        st.items.map (fun x => if x.id == iid then it' else x) } := by
  unfold toggle_item_active at h
  cases hfind : findItem st iid with
  | none => simp [hfind] at h
  | some it =>
    simp only [hfind, Except.ok.injEq, Prod.mk.injEq] at h
    obtain ⟨hs, hit⟩ := h
    exact ⟨it, rfl, hit.symm, by rw [← hit]; exact hs.symm⟩

/-! ### Preservation of the category-table invariant -/

lemma storeInv_init : StoreInv initStore := by
  refine ⟨?_, ?_, ?_⟩ <;> simp [initStore]

lemma catR_names {l : List Category} (h : l.Pairwise catR)
    {a b : Category} (ha : a ∈ l) (hb : b ∈ l) (hab : a ≠ b) :
    a.name ≠ b.name := by
  have h' : l.Pairwise (fun a b : Category => a.name ≠ b.name) :=
    h.imp (fun hr => hr.2)
  exact h'.forall (fun _ _ hne => hne.symm) ha hb hab

/-- Replacing the rows with id `cid` by a row `c'` of the same id whose
name collides with no other row preserves the table invariant. -/
lemma pairwise_replace {l : List Category} {cid : Nat} {c' : Category}
    (hp : l.Pairwise catR) (hid : c'.id = cid)
    (hname : ∀ b ∈ l, b.id ≠ cid → b.name ≠ c'.name) :
    (l.map (fun x => if x.id == cid then c' else x)).Pairwise catR := by
  induction l with
  | nil => simp
  | cons a l ih =>
    rw [List.pairwise_cons] at hp
    obtain ⟨h1, h2⟩ := hp
    simp only [List.map_cons, List.pairwise_cons]
    refine ⟨?_, ih h2 (fun b hb hbid => hname b (List.mem_cons_of_mem _ hb) hbid)⟩
    intro b' hb'
    obtain ⟨b, hb, rfl⟩ := List.mem_map.mp hb'
    have hab : catR a b := h1 b hb
    by_cases ha : a.id = cid <;> by_cases hbid : b.id = cid
    · exact absurd (ha.trans hbid.symm) (Nat.ne_of_lt hab.1)
    · simp only [ha, beq_self_eq_true, if_true, hbid, beq_iff_eq, if_false,
        if_neg hbid]
      exact ⟨hid ▸ ha ▸ hab.1,
        fun hn => hname b (List.mem_cons_of_mem _ hb) hbid hn.symm⟩
    · simp only [ha, beq_iff_eq, if_neg ha, hbid, beq_self_eq_true, if_true]
      exact ⟨hid ▸ hbid ▸ hab.1, hname a (List.mem_cons_self _ _) ha⟩
    · simp only [beq_iff_eq, if_neg ha, if_neg hbid]
      exact hab

/-- What a successful category patch preserves of the row. -/
lemma applyCategoryPatch_some {c c' : Category} {p : CategoryUpdate}
    (h : applyCategoryPatch c p = some c') :
    c'.id = c.id ∧
    (∀ n, p.name = some (some n) → c'.name = n) ∧
    (p.name = none → c'.name = c.name) ∧
    p.name ≠ some none := by
  unfold applyCategoryPatch at h
  cases hp : p.name with
  | none =>
    simp only [hp, Option.some.injEq] at h
    subst h
    exact ⟨rfl, fun n hn => by simp at hn, fun _ => rfl, by simp⟩
  | some v =>
    cases v with
    | none => simp [hp] at h
    | some n =>
      simp only [hp, Option.some.injEq] at h
      subst h
      refine ⟨rfl, fun m hm => ?_, fun habs => by simp at habs, by simp⟩
      simp only [Option.some.injEq] at hm
      simp [hm]

/-- Every validated request preserves the category-table invariant. -/
lemma storeInv_step (st : Store) (r : Request) (now : Nat)
    (hInv : StoreInv st) (hv : validRequest r = true) :
    StoreInv (stepStore st r now) := by
  obtain ⟨hpair, hbound, hlen⟩ := hInv
  cases r with
  | createCategory p =>
    simp only [stepStore]
    cases hres : create_category st p with
    | error e => exact ⟨hpair, hbound, hlen⟩
    | ok sc =>
      obtain ⟨s, c⟩ := sc
      obtain ⟨hfind, hc, hs⟩ := create_category_ok hres
      subst hs; subst hc
      have hnodup : ∀ c0 ∈ st.categories, c0.name ≠ p.name := by
        intro c0 hc0
        simpa using List.find?_eq_none.mp hfind c0 hc0
      simp only [validRequest, validCategoryCreate, Bool.and_eq_true,
        decide_eq_true_eq] at hv
      refine ⟨?_, ?_, ?_⟩
      · rw [List.pairwise_append]
        refine ⟨hpair, by simp, ?_⟩
        intro a ha b hb
        simp only [List.mem_singleton] at hb
        subst hb
        exact ⟨hbound a ha, hnodup a ha⟩
      · intro c0 hc0
        rcases List.mem_append.mp hc0 with h0 | h0
        · exact Nat.lt_succ_of_lt (hbound c0 h0)
        · simp only [List.mem_singleton] at h0
          subst h0
          exact Nat.lt_succ_self _
      · intro c0 hc0
        rcases List.mem_append.mp hc0 with h0 | h0
        · exact hlen c0 h0
        · simp only [List.mem_singleton] at h0
          subst h0
          exact hv.1.1
  | updateCategory cid p =>
    simp only [stepStore]
    cases hres : update_category st cid p with
    | error e => exact ⟨hpair, hbound, hlen⟩
    | ok sc =>
      obtain ⟨s, c'⟩ := sc
      obtain ⟨c, hfind, happly, hs, hdup⟩ := update_category_ok hres
      subst hs
      have hcid : c.id = cid := by simpa using List.find?_some hfind
      have hcmem : c ∈ st.categories := List.mem_of_find?_eq_some hfind
      obtain ⟨hid', hnset, hnabsent, hnnn⟩ := applyCategoryPatch_some happly
      have key : (∀ b ∈ st.categories, b.id ≠ cid → b.name ≠ c'.name) ∧
          3 ≤ c'.name.length := by
        cases hp : p.name with
        | none =>
          have hcn : c'.name = c.name := hnabsent hp
          constructor
          · intro b hb hbid
            rw [hcn]
            exact catR_names hpair hb hcmem (fun h0 => hbid (h0 ▸ hcid))
          · rw [hcn]
            exact hlen c hcmem
        | some v =>
          cases v with
          | none => exact absurd hp hnnn
          | some n =>
            have hcn : c'.name = n := hnset n hp
            have hvn : 3 ≤ n.length := by
              simp only [validRequest, validCategoryUpdate, hp,
                Bool.and_eq_true, decide_eq_true_eq] at hv
              exact hv.1.1
            have hne : n ≠ "" := by
              intro h0
              rw [h0] at hvn
              simp at hvn
            have ht : truthyStrField p.name = some n := by
              rw [hp]
              simp [truthyStrField, hne]
            have hdupn := hdup n ht
            constructor
            · intro b hb hbid
              rw [hcn]
              intro hbn
              have hfalse := List.find?_eq_none.mp hdupn b hb
              have : ¬(b.name = n ∧ b.id ≠ cid) := by simpa using hfalse
              exact this ⟨hbn, hbid⟩
            · rw [hcn]
              exact hvn
      refine ⟨pairwise_replace hpair (hid'.trans hcid) key.1, ?_, ?_⟩
      · intro y hy
        obtain ⟨x, hx, rfl⟩ := List.mem_map.mp hy
        by_cases hxid : x.id = cid
        · simp only [hxid, beq_self_eq_true, if_true]
          rw [hid', hcid, ← hxid]
          exact hbound x hx
        · simp only [beq_iff_eq, if_neg hxid]
          exact hbound x hx
      · intro y hy
        obtain ⟨x, hx, rfl⟩ := List.mem_map.mp hy
        by_cases hxid : x.id = cid
        · simp only [hxid, beq_self_eq_true, if_true]
          exact key.2
        · simp only [beq_iff_eq, if_neg hxid]
          exact hlen x hx
  | deleteCategory cid =>
    simp only [stepStore]
    cases hres : delete_category st cid with
    | error e => exact ⟨hpair, hbound, hlen⟩
    | ok s =>
      obtain ⟨_, _, hs⟩ := delete_category_ok hres
      subst hs
      have hsub : List.Sublist
          (st.categories.filter (fun c => !(c.id == cid))) st.categories :=
        List.filter_sublist _
      exact ⟨hpair.sublist hsub, fun x hx => hbound x (hsub.subset hx),
        fun x hx => hlen x (hsub.subset hx)⟩
  | createItem p =>
    simp only [stepStore]
    cases hres : create_item st p now with
    | error e => exact ⟨hpair, hbound, hlen⟩
    | ok sc =>
      obtain ⟨s, it⟩ := sc
      obtain ⟨_, _, hs⟩ := create_item_ok hres
      subst hs
      exact ⟨hpair, hbound, hlen⟩
  | updateItem iid p =>
    simp only [stepStore]
    cases hres : update_item st iid p now with
    | error e => exact ⟨hpair, hbound, hlen⟩
    | ok sc =>
      obtain ⟨s, it'⟩ := sc
      obtain ⟨it, it1, _, _, _, hs, _⟩ := update_item_ok hres
      subst hs
      exact ⟨hpair, hbound, hlen⟩
  | deleteItem iid =>
    simp only [stepStore]
    cases hres : delete_item st iid with
    | error e => exact ⟨hpair, hbound, hlen⟩
    | ok s =>
      obtain ⟨_, hs⟩ := delete_item_ok hres
      subst hs
      exact ⟨hpair, hbound, hlen⟩
  | toggleItemActive iid =>
    simp only [stepStore]
    cases hres : toggle_item_active st iid now with
    | error e => exact ⟨hpair, hbound, hlen⟩
    | ok sc =>
      obtain ⟨s, it'⟩ := sc
      obtain ⟨it, _, _, hs⟩ := toggle_item_active_ok hres
      subst hs
      exact ⟨hpair, hbound, hlen⟩

/-- Every reachable store satisfies the category-table invariant. -/
lemma storeInv_reachable {st : Store} (h : Reachable st) : StoreInv st := by
  induction h with
  | init => exact storeInv_init
  | step _ hv ih => exact storeInv_step _ _ _ ih hv

/-! ### Evaluation of the concrete trace -/

lemma colaPrice_ne_badPrice : colaPrice ≠ badPrice := by
  unfold colaPrice badPrice
  norm_num

lemma badPrice_ne_colaPrice : badPrice ≠ colaPrice :=
  fun h => colaPrice_ne_badPrice h.symm

lemma exSt1_eq : exSt1 = ⟨[⟨1, "Drinks", none⟩], [], 2, 1⟩ := by
  simp [exSt1, stepStore, reqDrinks, create_category, initStore]

lemma exSt2_eq : exSt2 =
    ⟨[⟨1, "Drinks", none⟩, ⟨2, "Food", some "Snacks"⟩], [], 3, 1⟩ := by
  simp [exSt2, exSt1_eq, stepStore, reqFood, create_category]

lemma exSt3_eq : exSt3 =
    ⟨[⟨1, "Drinks", none⟩, ⟨2, "Food", some "Snacks"⟩], [exCola], 3, 2⟩ := by
  simp [exSt3, exSt2_eq, stepStore, reqCola, create_item, findCategory, exCola]

lemma exStBad_eq : exStBad =
    ⟨[⟨1, "Drinks", none⟩, ⟨2, "Food", some "Snacks"⟩],
     [⟨1, 1, "Cola", none, badPrice, some 0, some true, 1, 2⟩], 3, 2⟩ := by
  simp [exStBad, exSt3_eq, stepStore, badPricePatch, update_item, findItem,
    exCola, truthyNatField, commitItemUpdate, applyItemPatch,
    colaPrice_ne_badPrice, badPrice_ne_colaPrice]

lemma exStNull_eq : exStNull =
    ⟨[⟨1, "Drinks", none⟩, ⟨2, "Food", some "Snacks"⟩], [exColaNull], 3, 2⟩ := by
  simp [exStNull, exSt3_eq, stepStore, nullActivePatch, update_item, findItem,
    exCola, exColaNull, truthyNatField, commitItemUpdate, applyItemPatch]

lemma reach_exSt3 : Reachable exSt3 :=
  .step
    (.step
      (.step .init (by decide))
      (by decide))
    (by
      simp [validRequest, reqCola, validItemCreate, validOptStrLen,
        validPriceField, colaPrice, roundTo2]
      repeat' apply And.intro
      all_goals first
        | decide
        | norm_num [round_eq])

lemma reach_exStBad : Reachable exStBad :=
  .step reach_exSt3 (by
    simp [validRequest, badPricePatch, validItemUpdate, badPrice])

lemma reach_exStNull : Reachable exStNull :=
  .step reach_exSt3 (by simp [validRequest, nullActivePatch, validItemUpdate])

/-! ### Claim theorems -/

/-- Claim C1: for every category id, `delete_category` succeeds — removing
only that category, with no cascade onto the items — if and only if the
category exists and owns zero items; if it exists with one or more items it
fails with `hasDependents` carrying the exact count and the store is
unchanged; if the id does not exist it fails with `notFound`. -/
theorem C1_delete_category (st : Store) (cid : Nat) (now : Nat) :
    (findCategory st cid = none →
      delete_category st cid = .error .notFound ∧
      stepStore st (.deleteCategory cid) now = st) ∧
    (∀ c, findCategory st cid = some c →
      ((st.items.filter (fun i => i.category_id == cid)).length = 0 →
        delete_category st cid = .ok { st with
          categories := st.categories.filter (fun c0 => !(c0.id == cid)) }) ∧
      (0 < (st.items.filter (fun i => i.category_id == cid)).length →
        delete_category st cid = .error
          (.hasDependents
            (st.items.filter (fun i => i.category_id == cid)).length) ∧
        stepStore st (.deleteCategory cid) now = st)) ∧
    (∀ s, delete_category st cid = .ok s →
      s.items = st.items ∧
      (∃ c, findCategory st cid = some c) ∧
      (st.items.filter (fun i => i.category_id == cid)).length = 0) := by
  refine ⟨?_, ?_, ?_⟩
  · intro hfind
    exact ⟨by simp [delete_category, hfind],
      by simp [stepStore, delete_category, hfind]⟩
  · intro c hfind
    constructor
    · intro hdeps
      have hnil : st.items.filter (fun i => i.category_id == cid) = [] :=
        List.length_eq_zero.mp hdeps
      have hkeep : st.items.filter (fun i => !(i.category_id == cid)) =
          st.items := by
        rw [List.filter_eq_self]
        intro i hi
        simpa using List.filter_eq_nil_iff.mp hnil i hi
      simp [delete_category, hfind, hnil, hkeep]
    · intro hpos
      have hne : (st.items.filter (fun i => i.category_id == cid)).isEmpty
          = false := by
        cases hh : (st.items.filter (fun i => i.category_id == cid)).isEmpty
        · rfl
        · rw [List.isEmpty_iff] at hh
          rw [hh] at hpos
          simp at hpos
      exact ⟨by simp [delete_category, hfind, hne],
        by simp [stepStore, delete_category, hfind, hne]⟩
  · intro s hok
    obtain ⟨⟨c, hfind⟩, hdeps, hs⟩ := delete_category_ok hok
    subst hs
    have hnil : st.items.filter (fun i => i.category_id == cid) = [] :=
      List.isEmpty_iff.mp hdeps
    have hkeep : st.items.filter (fun i => !(i.category_id == cid)) =
        st.items := by
      rw [List.filter_eq_self]
      intro i hi
      simpa using List.filter_eq_nil_iff.mp hnil i hi
    exact ⟨hkeep, ⟨c, hfind⟩, by rw [hnil]; rfl⟩

/-- Witness for C1 on the concrete trace: deleting the category that owns
the Cola item fails with a dependent count of 1; deleting the empty
category succeeds; deleting an unknown id is a 404. -/
theorem C1_delete_category_witness :
    delete_category exSt3 1 = .error (.hasDependents 1) ∧
    delete_category exSt3 2 = .ok { exSt3 with
      categories := exSt3.categories.filter (fun c0 => !(c0.id == 2)) } ∧
    delete_category exSt3 5 = .error .notFound := by
  have hlen1 : (exSt3.items.filter (fun i => i.category_id == 1)).length = 1 := by
    simp [exSt3_eq, exCola]
  have hfind1 : findCategory exSt3 1 = some ⟨1, "Drinks", none⟩ := by
    simp [exSt3_eq, findCategory]
  have hfind2 : findCategory exSt3 2 = some ⟨2, "Food", some "Snacks"⟩ := by
    simp [exSt3_eq, findCategory]
  have hfind5 : findCategory exSt3 5 = none := by
    simp [exSt3_eq, findCategory]
  refine ⟨?_, ?_, ?_⟩
  · have h := (((C1_delete_category exSt3 1 0).2.1 _ hfind1).2
      (by rw [hlen1]; exact Nat.one_pos)).1
    rw [hlen1] at h
    exact h
  · exact ((C1_delete_category exSt3 2 0).2.1 _ hfind2).1
      (by simp [exSt3_eq, exCola])
  · exact ((C1_delete_category exSt3 5 0).1 hfind5).1

lemma reach_exSt2 : Reachable exSt2 :=
  .step (.step .init (by decide)) (by decide)

/-- Claim C3: creating a category whose name exactly (case-sensitively)
matches an existing one always fails with `duplicateName`, whatever the
supplied description, and the store is unchanged; a name held by no
category succeeds and returns the new category carrying the
system-assigned id (which is fresh in every reachable store). -/
theorem C3_create_category (st : Store) (p : CategoryCreate) (now : Nat) :
    ((∃ c ∈ st.categories, c.name = p.name) →
      create_category st p = .error (.duplicateName p.name) ∧
      stepStore st (.createCategory p) now = st) ∧
    ((∀ c ∈ st.categories, c.name ≠ p.name) →
      create_category st p = .ok
        ({ st with
            categories := st.categories ++
              [⟨st.nextCategoryId, p.name, p.description⟩],
            nextCategoryId := st.nextCategoryId + 1 },
         ⟨st.nextCategoryId, p.name, p.description⟩)) ∧
    (Reachable st → ∀ c ∈ st.categories, c.id ≠ st.nextCategoryId) := by
  refine ⟨?_, ?_, ?_⟩
  · intro hex
    obtain ⟨c, hc, hname⟩ := hex
    have hfind : (st.categories.find? (fun c0 => c0.name == p.name)).isSome := by
      rw [List.find?_isSome]
      exact ⟨c, hc, by simp [hname]⟩
    obtain ⟨c0, hc0⟩ := Option.isSome_iff_exists.mp hfind
    exact ⟨by simp [create_category, hc0],
      by simp [stepStore, create_category, hc0]⟩
  · intro hall
    have hfind : st.categories.find? (fun c0 => c0.name == p.name) = none := by
      rw [List.find?_eq_none]
      intro c hc
      simpa using hall c hc
    simp [create_category, hfind]
  · intro hreach c hc
    have hinv := storeInv_reachable hreach
    exact Nat.ne_of_lt (hinv.2.1 c hc)

/-- Witness for C3 on the concrete trace: recreating "Drinks" fails even
with a different description; a fresh name succeeds with the next id. -/
theorem C3_create_category_witness :
    create_category exSt2 ⟨"Drinks", some "other"⟩ =
      .error (.duplicateName "Drinks") ∧
    create_category exSt2 ⟨"Desserts", none⟩ = .ok
      ({ exSt2 with
          categories := exSt2.categories ++
            [⟨exSt2.nextCategoryId, "Desserts", none⟩],
          nextCategoryId := exSt2.nextCategoryId + 1 },
       ⟨exSt2.nextCategoryId, "Desserts", none⟩) ∧
    (∀ c ∈ exSt2.categories, c.id ≠ exSt2.nextCategoryId) := by
  refine ⟨?_, ?_, ?_⟩
  · exact ((C3_create_category exSt2 ⟨"Drinks", some "other"⟩ 0).1
      ⟨⟨1, "Drinks", none⟩, by simp [exSt2_eq], rfl⟩).1
  · refine (C3_create_category exSt2 ⟨"Desserts", none⟩ 0).2.1 ?_
    intro c hc
    rw [exSt2_eq] at hc
    simp only [List.mem_cons, List.not_mem_nil, or_false] at hc
    rcases hc with rfl | rfl <;> decide
  · exact (C3_create_category exSt2 ⟨"Tea", none⟩ 0).2.2 reach_exSt2

/-- Claim C4: creating an item with a nonexistent `category_id`, and
updating an existing item with a patch that supplies a nonexistent
`category_id`, both fail with `categoryNotFound` and leave the store
unchanged (no item created, no patch field applied). -/
theorem C4_missing_category (st : Store) (now : Nat) :
    (∀ p : ItemCreate, findCategory st p.category_id = none →
      create_item st p now = .error (.categoryNotFound p.category_id) ∧
      stepStore st (.createItem p) now = st) ∧
    (∀ iid (p : ItemUpdate) it c, findItem st iid = some it →
      p.category_id = some (some c) → c ≠ 0 → findCategory st c = none →
      update_item st iid p now = .error (.categoryNotFound c) ∧
      stepStore st (.updateItem iid p) now = st) := by
  constructor
  · intro p hfind
    exact ⟨by simp [create_item, hfind],
      by simp [stepStore, create_item, hfind]⟩
  · intro iid p it c hit hpc hc0 hcat
    have htruthy : truthyNatField p.category_id = some c := by
      rw [hpc]
      simp [truthyNatField, hc0]
    exact ⟨by simp [update_item, hit, htruthy, hcat],
      by simp [stepStore, update_item, hit, htruthy, hcat]⟩

/-- Witness for C4 on the concrete trace: category id 9 does not exist, so
both the creation and the patch are rejected with `categoryNotFound 9`. -/
theorem C4_missing_category_witness :
    create_item exSt3 ⟨9, "Tea", none, colaPrice, some 0, true⟩ 5 =
      .error (.categoryNotFound 9) ∧
    update_item exSt3 1 ⟨some (some 9), none, none, none, none, none⟩ 5 =
      .error (.categoryNotFound 9) := by
  constructor
  · exact ((C4_missing_category exSt3 5).1 _
      (by simp [exSt3_eq, findCategory])).1
  · exact ((C4_missing_category exSt3 5).2 1 _ exCola 9
      (by simp [exSt3_eq, findItem, exCola]) rfl (by decide)
      (by simp [exSt3_eq, findCategory])).1

/-- Claim C9: `list_categories` is a deterministic window over the
insertion-ordered category table — it skips `skip` rows and returns at
most `limit` — and on every reachable store the returned rows are in
creation order (strictly increasing ids, ids being assigned in creation
order). -/
theorem C9_list_categories (st : Store) (hreach : Reachable st)
    (skip limit : Nat) :
    list_categories st skip limit = (st.categories.drop skip).take limit ∧
    (list_categories st skip limit).Pairwise (fun a b => a.id < b.id) := by
  refine ⟨rfl, ?_⟩
  have hpair := (storeInv_reachable hreach).1
  have hids : st.categories.Pairwise (fun a b : Category => a.id < b.id) :=
    hpair.imp (fun hr => hr.1)
  have hsub : List.Sublist (list_categories st skip limit) st.categories :=
    List.Sublist.trans (List.take_sublist _ _) (List.drop_sublist _ _)
  exact hids.sublist hsub

/-- Witness for C9 on the concrete trace: skipping one of the two
categories returns exactly the second, in id order. -/
theorem C9_list_categories_witness :
    list_categories exSt2 1 100 = [⟨2, "Food", some "Snacks"⟩] ∧
    (list_categories exSt2 1 100).Pairwise (fun a b => a.id < b.id) := by
  have h := C9_list_categories exSt2 reach_exSt2 1 100
  refine ⟨?_, h.2⟩
  rw [h.1, exSt2_eq]
  rfl

/-- Claim C8: with the window disabled (skip 0, limit at least the table
size), `list_items` returns exactly the items satisfying the conjunction
of the supplied filters; an absent filter imposes no constraint,
`category_id` and `is_active` are exact matches, the price bounds are
inclusive, and `min_rating` is an inclusive lower bound (a stored NULL
rating satisfies no rating filter, mirroring SQL comparison with NULL). -/
theorem C8_list_items (st : Store) (f : ItemFilters) (limit : Nat)
    (hlim : st.items.length ≤ limit) :
    list_items st 0 limit f = st.items.filter (matchesFilters f) ∧
    (∀ i, matchesFilters f i = true ↔
      (∀ c, f.category_id = some c → i.category_id = c) ∧
      (∀ b, f.is_active = some b → i.is_active = some b) ∧
      (∀ v, f.min_price = some v → v ≤ i.price) ∧
      (∀ v, f.max_price = some v → i.price ≤ v) ∧
      (∀ v, f.min_rating = some v → ∃ r, i.rating = some r ∧ v ≤ r)) ∧
    (∀ i, i ∈ list_items st 0 limit f ↔
      i ∈ st.items ∧ matchesFilters f i = true) := by
  have hlen : (st.items.filter (matchesFilters f)).length ≤ limit :=
    le_trans (List.length_filter_le _ _) hlim
  have hwin : list_items st 0 limit f = st.items.filter (matchesFilters f) := by
    unfold list_items
    rw [List.drop_zero, List.take_of_length_le hlen]
  refine ⟨hwin, ?_, ?_⟩
  · intro i
    have hrat : ∀ v : Rat,
        ((match i.rating with
          | none => false
          | some r => decide (v ≤ r)) = true) ↔
        ∃ r, i.rating = some r ∧ v ≤ r := by
      intro v
      cases hir : i.rating <;> simp
    unfold matchesFilters
    cases hc : f.category_id <;> cases ha : f.is_active <;>
      cases hmi : f.min_price <;> cases hma : f.max_price <;>
      cases hr : f.min_rating <;>
      simp [beq_iff_eq, hrat, and_assoc]
  · intro i
    rw [hwin, List.mem_filter]

/-- Witness for C8 on the concrete trace: the conjunction of all five
filters applied with the window disabled. -/
theorem C8_list_items_witness :
    list_items exSt3 0 100 ⟨some 1, some true, some 1, some 2, some 0⟩ =
      exSt3.items.filter
        (matchesFilters ⟨some 1, some true, some 1, some 2, some 0⟩) ∧
    (exCola ∈ list_items exSt3 0 100 ⟨some 1, some true, some 1, some 2, some 0⟩ ↔
      exCola ∈ exSt3.items ∧
      matchesFilters ⟨some 1, some true, some 1, some 2, some 0⟩ exCola = true) := by
  have h := C8_list_items exSt3 ⟨some 1, some true, some 1, some 2, some 0⟩ 100
    (by rw [exSt3_eq]; decide)
  exact ⟨h.1, h.2.2 exCola⟩

/-- The fixed points of rounding to two decimals are exactly the
multiples of `1/100`. -/
lemma roundTo2_eq_self_iff (v : Rat) :
    roundTo2 v = v ↔ ∃ n : Int, v = (n : Rat) / 100 := by
  constructor
  · intro h
    exact ⟨round (100 * v), h.symm⟩
  · rintro ⟨n, rfl⟩
    unfold roundTo2
    have h100 : (100 : Rat) * ((n : Rat) / 100) = (n : Rat) := by field_simp
    rw [h100, round_intCast]

/-- The creation-side price check accepts exactly the positive prices
with at most two decimal digits. -/
lemma validPriceField_iff (v : Rat) :
    validPriceField v = true ↔ 0 < v ∧ ∃ n : Int, v = (n : Rat) / 100 := by
  unfold validPriceField
  rw [Bool.and_eq_true, decide_eq_true_eq, beq_iff_eq, roundTo2_eq_self_iff]

/-- Counterexample to C5 as stated: the price `12.999` is rejected by the
creation validator, yet a reachable store (create at `12.99`-compatible
price, then update to `12.999`) holds an item with exactly that price,
because `ItemUpdate` does not inherit `ItemBase.validate_price` and only
requires positivity.  So a price failing the 2-decimal check IS stored. -/
theorem C5_counterexample :
    Reachable exStBad ∧
    validRequest (.updateItem 1 badPricePatch) = true ∧
    findItem exStBad 1 =
      some ⟨1, 1, "Cola", none, badPrice, some 0, some true, 1, 2⟩ ∧
    badPrice = (12999 : Rat) / 1000 ∧
    validPriceField badPrice = false := by
  refine ⟨reach_exStBad, ?_, ?_, rfl, ?_⟩
  · simp [validRequest, badPricePatch, validItemUpdate, badPrice]
  · simp [exStBad_eq, findItem]
  · have h2 : (roundTo2 badPrice == badPrice) = false := by
      rw [beq_eq_false_iff_ne]
      unfold roundTo2 badPrice
      norm_num [round_eq]
    rw [validPriceField, h2, Bool.and_false]

/-- Amended claim C5: the creation validator accepts a price iff it is
strictly positive and representable with at most two decimal digits, and
every item inserted by `create_item` from a validated creation payload
carries such a price; the update validator, however, only requires
positivity, so `update_item` can store finer-grained prices. -/
theorem C5_price_validation (v : Rat) (st : Store) (p : ItemCreate)
    (now : Nat) :
    (validPriceField v = true ↔ 0 < v ∧ ∃ n : Int, v = (n : Rat) / 100) ∧
    (validItemCreate p = true → ∀ s it, create_item st p now = .ok (s, it) →
      it.price = p.price ∧ 0 < it.price ∧
      (∃ n : Int, it.price = (n : Rat) / 100) ∧
      s.items = st.items ++ [it]) := by
  constructor
  · exact validPriceField_iff v
  · intro hvalid s it hok
    obtain ⟨_, hit, hs⟩ := create_item_ok hok
    have hprice : validPriceField p.price = true := by
      simp only [validItemCreate, Bool.and_eq_true] at hvalid
      exact hvalid.1.1.2
    obtain ⟨hpos, hn⟩ := (validPriceField_iff p.price).mp hprice
    subst hit
    subst hs
    exact ⟨rfl, hpos, hn, rfl⟩

/-- Witness for the amended C5: the Cola creation at price `1.50`. -/
theorem C5_price_validation_witness :
    exCola.price = colaPrice ∧ 0 < exCola.price ∧
    (∃ n : Int, exCola.price = (n : Rat) / 100) ∧
    (⟨[⟨1, "Drinks", none⟩, ⟨2, "Food", some "Snacks"⟩],
      [exCola], 3, 2⟩ : Store).items = exSt2.items ++ [exCola] := by
  have hok : create_item exSt2 ⟨1, "Cola", none, colaPrice, some 0, true⟩ 1 =
      .ok (⟨[⟨1, "Drinks", none⟩, ⟨2, "Food", some "Snacks"⟩],
            [exCola], 3, 2⟩, exCola) := by
    simp [exSt2_eq, create_item, findCategory, exCola]
  have hvalid : validItemCreate ⟨1, "Cola", none, colaPrice, some 0, true⟩
      = true := by
    simp [validItemCreate, validOptStrLen, validPriceField, colaPrice, roundTo2]
    repeat' apply And.intro
    all_goals first
      | decide
      | norm_num [round_eq]
  exact (C5_price_validation colaPrice exSt2
    ⟨1, "Cola", none, colaPrice, some 0, true⟩ 1).2 hvalid _ _ hok

/-- Description handling of a successful category patch. -/
lemma applyCategoryPatch_desc {c c' : Category} {p : CategoryUpdate}
    (h : applyCategoryPatch c p = some c') :
    (p.description = none → c'.description = c.description) ∧
    (∀ d, p.description = some d → c'.description = d) := by
  unfold applyCategoryPatch at h
  cases hp : p.name with
  | none =>
    simp only [hp, Option.some.injEq] at h
    subst h
    constructor
    · intro hd
      simp [hd]
    · intro d hd
      simp [hd]
  | some v =>
    cases v with
    | none => simp [hp] at h
    | some n =>
      simp only [hp, Option.some.injEq] at h
      subst h
      constructor
      · intro hd
        simp [hd]
      · intro d hd
        simp [hd]

/-- What a successful item patch does to each column. -/
lemma applyItemPatch_some {it it1 : Item} {p : ItemUpdate}
    (h : applyItemPatch it p = some it1) :
    it1.id = it.id ∧ it1.created_at = it.created_at ∧
    it1.updated_at = it.updated_at ∧
    (p.category_id = none → it1.category_id = it.category_id) ∧
    (p.name = none → it1.name = it.name) ∧
    (p.description = none → it1.description = it.description) ∧
    (∀ d, p.description = some d → it1.description = d) ∧
    (p.price = none → it1.price = it.price) ∧
    (∀ v, p.price = some (some v) → it1.price = v) ∧
    (p.rating = none → it1.rating = it.rating) ∧
    (p.is_active = none → it1.is_active = it.is_active) ∧
    (∀ b, p.is_active = some b → it1.is_active = b) := by
  unfold applyItemPatch at h
  split at h
  · exact absurd h (by simp)
  · simp only [Option.some.injEq] at h
    subst h
    refine ⟨rfl, rfl, rfl, ?_, ?_, ?_, ?_, ?_, ?_, ?_, ?_, ?_⟩
    · intro hp
      simp [hp]
    · intro hp
      simp [hp]
    · intro hp
      simp [hp]
    · intro d hp
      simp [hp]
    · intro hp
      simp [hp]
    · intro v hp
      simp [hp]
    · intro hp
      simp [hp]
    · intro hp
      simp [hp]
    · intro b hp
      simp [hp]

/-- Columns of the item returned by a successful `update_item`, relative
to the stored row. -/
lemma update_item_fields {st : Store} {iid : Nat} {p : ItemUpdate}
    {now : Nat} {s : Store} {it' it : Item}
    (h : update_item st iid p now = .ok (s, it'))
    (hfind : findItem st iid = some it) :
    it'.id = it.id ∧ it'.created_at = it.created_at ∧
    (p.category_id = none → it'.category_id = it.category_id) ∧
    (p.name = none → it'.name = it.name) ∧
    (p.description = none → it'.description = it.description) ∧
    (∀ d, p.description = some d → it'.description = d) ∧
    (p.price = none → it'.price = it.price) ∧
    (p.rating = none → it'.rating = it.rating) ∧
    (p.is_active = none → it'.is_active = it.is_active) := by
  obtain ⟨it0, it1, hfind0, happly, hit', hs, _⟩ := update_item_ok h
  rw [hfind0] at hfind
  simp only [Option.some.injEq] at hfind
  subst hfind
  obtain ⟨h1, h2, h3, h4, h5, h6, h7, h8, h9, h10, h11, h12⟩ :=
    applyItemPatch_some happly
  have hfields : it'.id = it1.id ∧ it'.category_id = it1.category_id ∧
      it'.name = it1.name ∧ it'.description = it1.description ∧
      it'.price = it1.price ∧ it'.rating = it1.rating ∧
      it'.is_active = it1.is_active ∧ it'.created_at = it1.created_at := by
    subst hit'
    by_cases hchange : it1 = it0
    · simp [hchange]
    · simp [hchange]
  refine ⟨hfields.1.trans h1, hfields.2.2.2.2.2.2.2.trans h2,
    ?_, ?_, ?_, ?_, ?_, ?_, ?_⟩
  · intro hp
    rw [hfields.2.1]
    exact h4 hp
  · intro hp
    rw [hfields.2.2.1]
    exact h5 hp
  · intro hp
    rw [hfields.2.2.2.1]
    exact h6 hp
  · intro d hp
    rw [hfields.2.2.2.1]
    exact h7 d hp
  · intro hp
    rw [hfields.2.2.2.2.1]
    exact h8 hp
  · intro hp
    rw [hfields.2.2.2.2.2.1]
    exact h10 hp
  · intro hp
    rw [hfields.2.2.2.2.2.2.1]
    exact h11 hp

/-- Claim C6: fields absent from an update patch are never altered, for
items (`update_item`) and categories (`update_category`) alike; `id` and
`created_at` are never altered by any patch. -/
theorem C6_partial_update_frame (st : Store) (now : Nat) :
    (∀ iid (p : ItemUpdate) s it' it,
      update_item st iid p now = .ok (s, it') → findItem st iid = some it →
      it'.id = it.id ∧ it'.created_at = it.created_at ∧
      (p.category_id = none → it'.category_id = it.category_id) ∧
      (p.name = none → it'.name = it.name) ∧
      (p.description = none → it'.description = it.description) ∧
      (p.price = none → it'.price = it.price) ∧
      (p.rating = none → it'.rating = it.rating) ∧
      (p.is_active = none → it'.is_active = it.is_active)) ∧
    (∀ cid (p : CategoryUpdate) s c' c,
      update_category st cid p = .ok (s, c') → findCategory st cid = some c →
      c'.id = c.id ∧
      (p.name = none → c'.name = c.name) ∧
      (p.description = none → c'.description = c.description)) := by
  constructor
  · intro iid p s it' it hok hfind
    obtain ⟨h1, h2, h3, h4, h5, _, h7, h8, h9⟩ := update_item_fields hok hfind
    exact ⟨h1, h2, h3, h4, h5, h7, h8, h9⟩
  · intro cid p s c' c hok hfind
    obtain ⟨c0, hfind0, happly, _, _⟩ := update_category_ok hok
    rw [hfind0] at hfind
    simp only [Option.some.injEq] at hfind
    subst hfind
    obtain ⟨hid, _, hnabs, _⟩ := applyCategoryPatch_some happly
    obtain ⟨hdabs, _⟩ := applyCategoryPatch_desc happly
    exact ⟨hid, hnabs, hdabs⟩

/-- Witness for C6: updating only the description of the Cola item leaves
name, price, rating, activity and category untouched. -/
theorem C6_partial_update_frame_witness :
    ∃ s it', update_item exSt3 1
        ⟨none, none, some (some "Fizzy"), none, none, none⟩ 5 = .ok (s, it') ∧
      it'.name = exCola.name ∧ it'.price = exCola.price ∧
      it'.rating = exCola.rating ∧ it'.is_active = exCola.is_active ∧
      it'.category_id = exCola.category_id ∧
      it'.created_at = exCola.created_at := by
  have hok : update_item exSt3 1
      ⟨none, none, some (some "Fizzy"), none, none, none⟩ 5 =
      .ok (⟨[⟨1, "Drinks", none⟩, ⟨2, "Food", some "Snacks"⟩],
            [⟨1, 1, "Cola", some "Fizzy", colaPrice, some 0, some true, 1, 5⟩],
            3, 2⟩,
           ⟨1, 1, "Cola", some "Fizzy", colaPrice, some 0, some true, 1, 5⟩) := by
    simp [exSt3_eq, update_item, findItem, exCola, truthyNatField,
      commitItemUpdate, applyItemPatch]
  have h := (C6_partial_update_frame exSt3 5).1 1
    ⟨none, none, some (some "Fizzy"), none, none, none⟩ _ _ exCola hok
    (by simp [exSt3_eq, findItem, exCola])
  exact ⟨_, _, hok, h.2.2.2.1 rfl, h.2.2.2.2.2.1 rfl, h.2.2.2.2.2.2.1 rfl,
    h.2.2.2.2.2.2.2 rfl, h.2.2.1 rfl, h.2.1⟩

/-- A patch that only nulls the description always commits: the whole
`update_item` succeeds and the stored description becomes `NULL`, all
other content columns untouched. -/
lemma update_item_null_description {st : Store} {iid : Nat} {it : Item}
    (hfind : findItem st iid = some it) (now : Nat) :
    ∃ s it', update_item st iid ⟨none, none, some none, none, none, none⟩ now
        = .ok (s, it') ∧
      it'.description = none ∧ it'.name = it.name ∧ it'.price = it.price ∧
      it'.rating = it.rating ∧ it'.is_active = it.is_active ∧
      it'.category_id = it.category_id ∧ it'.created_at = it.created_at := by
  have happly : applyItemPatch it ⟨none, none, some none, none, none, none⟩ =
      some { it with description := none } := by
    simp [applyItemPatch]
  have hstep : update_item st iid ⟨none, none, some none, none, none, none⟩ now
      = commitItemUpdate st iid it ⟨none, none, some none, none, none, none⟩
          now := by
    simp [update_item, hfind, truthyNatField]
  rw [hstep]
  simp only [commitItemUpdate, happly]
  by_cases hchange : ({ it with description := none } : Item) = it
  · rw [if_pos hchange]
    have hdesc : it.description = none := by
      have := congrArg Item.description hchange
      simpa using this.symm
    exact ⟨_, _, rfl, hdesc, rfl, rfl, rfl, rfl, rfl, rfl⟩
  · rw [if_neg hchange]
    exact ⟨_, _, rfl, rfl, rfl, rfl, rfl, rfl, rfl, rfl⟩

/-- Claim C10: an update patch that explicitly supplies `null` for the
description (as opposed to omitting the field) is forwarded and clears
the stored description, every other content field unchanged — for items
and for categories; an omitted description is left untouched, so explicit
null and absence are distinguishable at the public interface. -/
theorem C10_explicit_null_description (st : Store) (now : Nat) :
    (∀ iid it, findItem st iid = some it →
      ∃ s it', update_item st iid ⟨none, none, some none, none, none, none⟩
          now = .ok (s, it') ∧
        it'.description = none ∧ it'.name = it.name ∧ it'.price = it.price ∧
        it'.rating = it.rating ∧ it'.is_active = it.is_active ∧
        it'.category_id = it.category_id ∧ it'.created_at = it.created_at) ∧
    (∀ iid it, findItem st iid = some it →
      ∃ s it', update_item st iid emptyItemUpdate now = .ok (s, it') ∧
        it'.description = it.description) ∧
    (∀ cid c, findCategory st cid = some c →
      ∃ s c', update_category st cid ⟨none, some none⟩ = .ok (s, c') ∧
        c'.description = none ∧ c'.name = c.name) ∧
    (∀ cid c, findCategory st cid = some c →
      ∃ s c', update_category st cid emptyCategoryUpdate = .ok (s, c') ∧
        c'.description = c.description) := by
  refine ⟨?_, ?_, ?_, ?_⟩
  · intro iid it hfind
    exact update_item_null_description hfind now
  · intro iid it hfind
    have happly : applyItemPatch it emptyItemUpdate = some it := by
      simp [applyItemPatch, emptyItemUpdate]
    have hstep : update_item st iid emptyItemUpdate now
        = commitItemUpdate st iid it emptyItemUpdate now := by
      simp [update_item, hfind, truthyNatField, emptyItemUpdate]
    rw [hstep]
    simp only [commitItemUpdate, happly, if_pos]
    exact ⟨_, _, rfl, rfl⟩
  · intro cid c hfind
    have hstep : update_category st cid ⟨none, some none⟩
        = commitCategoryUpdate st cid c ⟨none, some none⟩ := by
      simp [update_category, hfind, truthyStrField]
    rw [hstep]
    simp only [commitCategoryUpdate, applyCategoryPatch]
    exact ⟨_, _, rfl, rfl, rfl⟩
  · intro cid c hfind
    have hstep : update_category st cid emptyCategoryUpdate
        = commitCategoryUpdate st cid c emptyCategoryUpdate := by
      simp [update_category, hfind, truthyStrField, emptyCategoryUpdate]
    rw [hstep]
    simp only [commitCategoryUpdate, applyCategoryPatch, emptyCategoryUpdate]
    exact ⟨_, _, rfl, rfl⟩

/-- Witness for C10 on the concrete trace: nulling the description of the
"Food" category (whose description is "Snacks") clears it; nulling the
Cola item's description succeeds with all other fields intact. -/
theorem C10_explicit_null_description_witness :
    (∃ s it', update_item exSt3 1 ⟨none, none, some none, none, none, none⟩ 7
        = .ok (s, it') ∧
      it'.description = none ∧ it'.name = exCola.name ∧
      it'.price = exCola.price ∧ it'.rating = exCola.rating ∧
      it'.is_active = exCola.is_active ∧
      it'.category_id = exCola.category_id ∧
      it'.created_at = exCola.created_at) ∧
    (∃ s c', update_category exSt3 2 ⟨none, some none⟩ = .ok (s, c') ∧
      c'.description = none ∧ c'.name = "Food") := by
  constructor
  · exact (C10_explicit_null_description exSt3 7).1 1 exCola
      (by simp [exSt3_eq, findItem, exCola])
  · exact (C10_explicit_null_description exSt3 7).2.2.1 2
      ⟨2, "Food", some "Snacks"⟩ (by simp [exSt3_eq, findCategory])

/-- Replacing the found row by a row with the same id is transparent to
`findItem`. -/
lemma findItem_map_replace {st : Store} {iid : Nat} {it it2 : Item}
    (hfind : findItem st iid = some it) (hid : it2.id = it.id) :
    findItem { st with
      items := st.items.map (fun x => if x.id == iid then it2 else x) } iid
      = some it2 := by
  have hitid : it.id = iid := by
    simpa using List.find?_some hfind
  unfold findItem at hfind ⊢
  have hq : ((fun i : Item => i.id == iid) ∘
      (fun x => if x.id == iid then it2 else x)) =
      (fun i : Item => i.id == iid) := by
    funext x
    by_cases hx : x.id = iid
    · simp [hx, hid, hitid]
    · simp [hx]
  show (st.items.map (fun x => if x.id == iid then it2 else x)).find?
      (fun i => i.id == iid) = some it2
  rw [List.find?_map, hq, hfind]
  simp [hitid]

/-- The item toggled at time `now`. -/
lemma toggle_item_active_of_find {st : Store} {iid : Nat} {it : Item}
    (hfind : findItem st iid = some it) (now : Nat) :
    toggle_item_active st iid now = .ok
      ({ st with
          items := st.items.map (fun x => if x.id == iid
            then { it with is_active := some (pyNot it.is_active),
                           updated_at := now }
            else x) },
       { it with is_active := some (pyNot it.is_active),
                 updated_at := now }) := by
  simp [toggle_item_active, hfind]

/-- Counterexample to C7 as stated: `is_active` is a nullable column and
`ItemUpdate.is_active` is `Optional[bool]`, so a validated patch can store
`NULL`; Python's `not None` is `True`, so toggling such an item twice
yields `False`, not the original `NULL`.  The store below is reachable
through validated requests. -/
theorem C7_counterexample :
    Reachable exStNull ∧
    findItem exStNull 1 = some exColaNull ∧
    exColaNull.is_active = none ∧
    toggle_item_active exStNull 1 5 = .ok
      (⟨[⟨1, "Drinks", none⟩, ⟨2, "Food", some "Snacks"⟩],
        [⟨1, 1, "Cola", none, colaPrice, some 0, some true, 1, 5⟩], 3, 2⟩,
       ⟨1, 1, "Cola", none, colaPrice, some 0, some true, 1, 5⟩) ∧
    toggle_item_active
      ⟨[⟨1, "Drinks", none⟩, ⟨2, "Food", some "Snacks"⟩],
       [⟨1, 1, "Cola", none, colaPrice, some 0, some true, 1, 5⟩], 3, 2⟩ 1 6
      = .ok
      (⟨[⟨1, "Drinks", none⟩, ⟨2, "Food", some "Snacks"⟩],
        [⟨1, 1, "Cola", none, colaPrice, some 0, some false, 1, 6⟩], 3, 2⟩,
       ⟨1, 1, "Cola", none, colaPrice, some 0, some false, 1, 6⟩) ∧
    (some false : Option Bool) ≠ exColaNull.is_active := by
  refine ⟨reach_exStNull, ?_, rfl, ?_, ?_, by simp [exColaNull]⟩
  · simp [exStNull_eq, findItem, exColaNull]
  · simp [exStNull_eq, toggle_item_active, findItem, exColaNull, pyNot]
  · simp [toggle_item_active, findItem, pyNot]

/-- Amended claim C7: `toggle_item_active` fails with `notFound` on an
unknown id; on an existing item it unconditionally sets `is_active` to
the Python negation of its current value and refreshes `updated_at`; and
whenever the current `is_active` is non-NULL — which holds for every item
as created — two successive toggles restore the original value while
refreshing the timestamp both times. -/
theorem C7_toggle_involution (st : Store) (iid : Nat) (t1 t2 : Nat) :
    (findItem st iid = none →
      toggle_item_active st iid t1 = .error .notFound) ∧
    (∀ it, findItem st iid = some it →
      ∃ s1 it1, toggle_item_active st iid t1 = .ok (s1, it1) ∧
        it1.is_active = some (pyNot it.is_active) ∧ it1.updated_at = t1 ∧
        findItem s1 iid = some it1 ∧
        ∀ b, it.is_active = some b →
          ∃ s2 it2, toggle_item_active s1 iid t2 = .ok (s2, it2) ∧
            it2.is_active = some b ∧ it2.updated_at = t2) := by
  constructor
  · intro hfind
    simp [toggle_item_active, hfind]
  · intro it hfind
    have hok := toggle_item_active_of_find hfind t1
    have hfind1 := findItem_map_replace hfind
      (rfl : ({ it with is_active := some (pyNot it.is_active),
                        updated_at := t1 } : Item).id = it.id)
    refine ⟨_, _, hok, rfl, rfl, hfind1, ?_⟩
    intro b hb
    have hok2 := toggle_item_active_of_find hfind1 t2
    refine ⟨_, _, hok2, ?_, rfl⟩
    simp [hb, pyNot]

/-- Witness for the amended C7: the Cola item starts with
`is_active = some true`; one toggle flips it with the new timestamp, the
second restores `some true`; an unknown id is a 404. -/
theorem C7_toggle_involution_witness :
    (∃ s1 it1, toggle_item_active exSt3 1 5 = .ok (s1, it1) ∧
      it1.is_active = some (pyNot exCola.is_active) ∧ it1.updated_at = 5 ∧
      findItem s1 1 = some it1 ∧
      ∃ s2 it2, toggle_item_active s1 1 6 = .ok (s2, it2) ∧
        it2.is_active = some true ∧ it2.updated_at = 6) ∧
    toggle_item_active exSt3 99 5 = .error .notFound := by
  constructor
  · have h := (C7_toggle_involution exSt3 1 5 6).2 exCola
      (by simp [exSt3_eq, findItem, exCola])
    obtain ⟨s1, it1, hok, ha, ht, hf, hrest⟩ := h
    exact ⟨s1, it1, hok, ha, ht, hf, hrest true rfl⟩
  · exact (C7_toggle_involution exSt3 99 5 6).1
      (by simp [exSt3_eq, findItem, exCola])

/-- Claim C2: category-name uniqueness is an invariant of every store
reachable through validated requests; `update_category` rejects with
`duplicateName` — before applying any field, the store being unchanged —
any patch whose name equals a different existing category's name, while a
patch carrying the target's own current name is accepted. -/
theorem C2_name_uniqueness (st : Store) (hreach : Reachable st) :
    st.categories.Pairwise (fun a b => a.name ≠ b.name) ∧
    (∀ cid c other p, findCategory st cid = some c →
      other ∈ st.categories → other.id ≠ cid →
      p.name = some (some other.name) →
      update_category st cid p = .error (.duplicateName other.name) ∧
      ∀ now, stepStore st (.updateCategory cid p) now = st) ∧
    (∀ cid c (p : CategoryUpdate), findCategory st cid = some c →
      p.name = some (some c.name) →
      ∃ s c', update_category st cid p = .ok (s, c') ∧ c'.name = c.name) := by
  obtain ⟨hpair, hbound, hlen⟩ := storeInv_reachable hreach
  refine ⟨hpair.imp (fun hr => hr.2), ?_, ?_⟩
  · intro cid c other p hfind hother hoid hpname
    have hne : other.name ≠ "" := by
      have hl := hlen other hother
      intro h0
      rw [h0] at hl
      simp at hl
    have htruthy : truthyStrField p.name = some other.name := by
      rw [hpname]
      simp [truthyStrField, hne]
    have hdup : (st.categories.find?
        (fun x => x.name == other.name && x.id != cid)).isSome := by
      rw [List.find?_isSome]
      exact ⟨other, hother, by simp [hoid]⟩
    obtain ⟨c0, hc0⟩ := Option.isSome_iff_exists.mp hdup
    constructor
    · simp [update_category, hfind, htruthy, hc0]
    · intro now
      simp [stepStore, update_category, hfind, htruthy, hc0]
  · intro cid c p hfind hpname
    have hcid : c.id = cid := by
      simpa using List.find?_some hfind
    have hcmem : c ∈ st.categories := List.mem_of_find?_eq_some hfind
    have hne : c.name ≠ "" := by
      have hl := hlen c hcmem
      intro h0
      rw [h0] at hl
      simp at hl
    have htruthy : truthyStrField p.name = some c.name := by
      rw [hpname]
      simp [truthyStrField, hne]
    have hdup : st.categories.find?
        (fun x => x.name == c.name && x.id != cid) = none := by
      rw [List.find?_eq_none]
      intro x hx hcontra
      rw [Bool.and_eq_true] at hcontra
      obtain ⟨hxn, hxid⟩ := hcontra
      rw [beq_iff_eq] at hxn
      rw [bne_iff_ne] at hxid
      by_cases hxc : x = c
      · exact hxid (by rw [hxc, hcid])
      · exact catR_names hpair hx hcmem hxc hxn
    have happly : ∃ c', applyCategoryPatch c p = some c' ∧ c'.name = c.name := by
      unfold applyCategoryPatch
      rw [hpname]
      exact ⟨_, rfl, rfl⟩
    obtain ⟨c', happ, hcname⟩ := happly
    refine ⟨{ st with
      categories := st.categories.map (fun x => if x.id == cid then c' else x) },
      c', ?_, hcname⟩
    simp [update_category, hfind, htruthy, hdup, commitCategoryUpdate, happ]

/-- Witness for C2 on the concrete trace: renaming "Food" to "Drinks"
collides with the other category and is rejected with the store unchanged;
renaming "Food" to its own name succeeds. -/
theorem C2_name_uniqueness_witness :
    exSt3.categories.Pairwise (fun a b => a.name ≠ b.name) ∧
    update_category exSt3 2 ⟨some (some "Drinks"), none⟩ =
      .error (.duplicateName "Drinks") ∧
    (∃ s c', update_category exSt3 2 ⟨some (some "Food"), none⟩ =
      .ok (s, c') ∧ c'.name = "Food") := by
  have h := C2_name_uniqueness exSt3 reach_exSt3
  refine ⟨h.1, ?_, ?_⟩
  · exact (h.2.1 2 ⟨2, "Food", some "Snacks"⟩ ⟨1, "Drinks", none⟩
      ⟨some (some "Drinks"), none⟩
      (by simp [exSt3_eq, findCategory]) (by simp [exSt3_eq])
      (by decide) rfl).1
  · exact h.2.2 2 ⟨2, "Food", some "Snacks"⟩ ⟨some (some "Food"), none⟩
      (by simp [exSt3_eq, findCategory]) rfl
